import Mathlib

/-!
Verification of the Keccak-prime orchestrator (`src/prime.rs`).

The repository source under verification is the single function `prime`
together with its error type `KeccakPrimeError`.  Its collaborators —
the Expander (`crate::expansion::expand`), the penalized sponge hash
(`crate::keccak::Keccak`) and the VDF crate (`::vdf`) — are not part of
the source under `src/`; following the spec they are external
collaborators with fixed contracts, so the embedding is parameterized
over them (a `Collab` record of pure functions), and concrete
spec-modelled instances are supplied for evaluation.
-/

namespace KeccakPrime

/-- Modelled from the spec: `INPUT_HASH_SIZE` is declared in
`crate::expansion`, which is not under `src/`.  The spec fixes it:
hashes and digests are 32-byte arrays (`[1;32]`, "32-byte digest"). -/
def INPUT_HASH_SIZE : Nat := 32

/-- Modelled from the spec: `NONCE_SIZE` is declared in
`crate::expansion`, which is not under `src/`.  The spec's concrete
scenario uses `nonce = [3;12]`, so the nonce is 12 bytes. -/
def NONCE_SIZE : Nat := 12

/-- Byte strings, as lists of naturals. -/
abbrev Bytes := List Nat

/-- Modelled from the spec: `aes_gcm_siv::aead::Error` (the expansion
collaborator's error) is opaque beyond "it failed", carrying no data. -/
inductive AeadError where
  | mk : AeadError
  deriving DecidableEq, Repr

/-- Modelled from the spec: `vdf::InvalidIterations` carries a
human-readable message describing the valid iterations. -/
structure InvalidIterations where
  msg : String
  deriving DecidableEq, Repr

/-- The Keccak-prime error type, translated from `KeccakPrimeError` in
`src/prime.rs`: one variant per collaborator failure kind. -/
inductive KeccakPrimeError where
  /-- Opaque AES function failure. -/
  | AesError (e : AeadError)
  /-- An invalid number of VDF iterations. -/
  | VdfInvalidIterations (e : InvalidIterations)
  deriving DecidableEq, Repr

/-- The `From<aes_gcm_siv::aead::Error>` conversion of `src/prime.rs`. -/
def KeccakPrimeError.fromAes (e : KeccakPrime.AeadError) : KeccakPrimeError :=
  KeccakPrimeError.AesError e

/-- The `From<InvalidIterations>` conversion of `src/prime.rs`. -/
def KeccakPrimeError.fromInvalidIterations (e : InvalidIterations) : KeccakPrimeError :=
  KeccakPrimeError.VdfInvalidIterations e

/-- The VDF parameter value `PietrzakVDFParams(bits)` from the `vdf`
crate (an external collaborator). -/
structure PietrzakVDFParams where
  bits : Nat
  deriving DecidableEq, Repr

/-- A constructed VDF instance: exposes `solve(seed, delay)`, which may
fail with `InvalidIterations`.  The instance is stateless (a pure
function), matching the spec's collaborator contract. -/
structure VDFInst where
  solve : Bytes → Nat → Except InvalidIterations Bytes

/-- Modelled from the spec: the internal sponge machinery of
`crate::keccak::Keccak`, which is not under `src/`.  The spec fixes only
the interface: an absorb phase over the buffered input at a given rate,
an internal permutation, and a squeeze emitting the digest bytes. -/
structure SpongeCore where
  absorb : Nat → Bytes → Bytes
  permute : Bytes → Bytes
  squeeze : Nat → Bytes → Bytes

/-- Modelled from the spec: `crate::keccak::Keccak` (not under `src/`).
Constructed with a rate, it buffers absorbed input; `update` may be
called multiple times; finalization squeezes a digest after `penalty`
extra internal permutation rounds. -/
structure Keccak where
  core : SpongeCore
  rate : Nat
  buf : Bytes

/-- `Keccak::new(rate)`: fresh sponge with an empty buffer. -/
def Keccak.new (core : SpongeCore) (rate : Nat) : Keccak :=
  ⟨core, rate, []⟩

/-- `Keccak::update(bytes)`: absorb more input. -/
def Keccak.update (k : Keccak) (bytes : Bytes) : Keccak :=
  { k with buf := k.buf ++ bytes }

/-- Modelled from the spec: `finalize_with_penalty(penalty)` performs
`penalty` additional internal permutation rounds before producing the
output bytes. -/
def Keccak.finalize_with_penalty (k : Keccak) (penalty : Nat) : Bytes :=
  k.core.squeeze k.rate (k.core.permute^[penalty] (k.core.absorb k.rate k.buf))

/-- Modelled from the spec: the sponge's ordinary finalize, to which
`finalize_with_penalty 0` must reduce. -/
def Keccak.finalize (k : Keccak) : Bytes :=
  k.core.squeeze k.rate (k.core.absorb k.rate k.buf)

/-- The collaborator bundle consumed by the orchestrator: the Expander,
VDF instance construction (`PietrzakVDFParams(..).new()`), and the
sponge internals. -/
structure Collab where
  expand : Bytes → Bytes → Bytes → Except AeadError Bytes
  vdfNew : PietrzakVDFParams → VDFInst
  sponge : SpongeCore

/-- The VDF stage of `prime` (`src/prime.rs` lines 77–81), translated
directly from the Rust `for` loop over `0..vdf_iterations`: each pass
constructs a fresh Pietrzak VDF for the fixed 2048-bit parameter set and
replaces the running output by `solve(output, delay)`, with `?`
converting a failure into `KeccakPrimeError`. -/
def vdfLoop (C : Collab) (delay : Nat) (vdf_iterations : Nat) (block : Bytes) :
    Except KeccakPrimeError Bytes :=
  (List.range vdf_iterations).foldlM
    (fun vdf_output _i =>
      let pietrzak_vdf := C.vdfNew (PietrzakVDFParams.mk 2048)
      (pietrzak_vdf.solve vdf_output delay).mapError KeccakPrimeError.fromInvalidIterations)
    block

/-- The Keccak-prime function, translated from `prime` in
`src/prime.rs`: expand the block, execute a chain of VDFs, then absorb
the result into a Keccak sponge with rate 1088 bits and finalize with
the penalty. -/
def prime (C : Collab)
    (prev_hash root_hash nonce : Bytes)
    (penalty : Nat) (delay : Nat) (vdf_iterations : Nat) :
    Except KeccakPrimeError Bytes := do
  let block ← (C.expand prev_hash root_hash nonce).mapError KeccakPrimeError.fromAes
  let vdf_output ← vdfLoop C delay vdf_iterations block
  let keccak := Keccak.new C.sponge (1088 / 8)
  let keccak := keccak.update vdf_output
  pure (keccak.finalize_with_penalty penalty)

/-- The VDF stage written as an explicit seed chain: zero iterations
pass the seed through unchanged; `k+1` iterations solve once on the seed
with the shared delay (fresh 2048-bit instance) and feed the output to
the remaining `k` iterations. -/
def vdfChain (C : Collab) (delay : Nat) : Nat → Bytes → Except KeccakPrimeError Bytes
  | 0, seed => Except.ok seed
  | k + 1, seed =>
    ((C.vdfNew (PietrzakVDFParams.mk 2048)).solve seed delay).mapError
      KeccakPrimeError.fromInvalidIterations >>= vdfChain C delay k

/-- Modelled from the spec: a concrete Expander satisfying the
collaborator contract of §6 — deterministic in `(prev_hash, root_hash,
nonce)` and producing a 32-byte block.  The real
`crate::expansion::expand` (AES-GCM-SIV based) is not under `src/` and
its internals are out of the spec's scope. -/
def refExpand (prev_hash root_hash nonce : Bytes) : Except AeadError Bytes :=
  Except.ok ((List.range INPUT_HASH_SIZE).map (fun i =>
    (prev_hash.getD i 0 + 2 * root_hash.getD i 0 +
      3 * nonce.getD (i % NONCE_SIZE) 0 + i) % 256))

/-- Modelled from the spec: a concrete VDF `solve` satisfying the
collaborator contract of §6 — deterministic in `(seed, delay)`, output
the same fixed size as the seed.  The Pietrzak VDF internals live in the
external `vdf` crate and are out of the spec's scope. -/
def refSolve (seed : Bytes) (delay : Nat) : Except InvalidIterations Bytes :=
  Except.ok ((seed.map (fun b => (b * 5 + delay + 1) % 256)).rotate 1)

/-- Modelled from the spec: a concrete internal permutation for the
sponge; the real Keccak-f round function is out of the spec's scope. -/
def refPermute (s : Bytes) : Bytes :=
  (s.map (fun b => (b * 3 + 11) % 256)).rotate 1

/-- Modelled from the spec: a concrete absorb phase folding the rate
and the buffered input into an internal state. -/
def refAbsorb (rate : Nat) (buf : Bytes) : Bytes :=
  rate % 256 :: buf.map (fun b => b % 256)

/-- Modelled from the spec: a concrete squeeze emitting a digest of
exactly `INPUT_HASH_SIZE` bytes, as the Digest entity requires. -/
def refSqueeze (rate : Nat) (s : Bytes) : Bytes :=
  (List.range INPUT_HASH_SIZE).map (fun i =>
    s.foldl (fun a b => (a * 33 + b + 1) % 256) (i + rate))

/-- The concrete spec-modelled sponge internals. -/
def refSponge : SpongeCore :=
  ⟨refAbsorb, refPermute, refSqueeze⟩

/-- The concrete spec-modelled collaborator bundle. -/
def refCollab : Collab :=
  ⟨refExpand, fun _params => ⟨refSolve⟩, refSponge⟩

/-- `prev_hash = [1; 32]` from the spec's concrete scenario. -/
def prevHashC : Bytes := List.replicate INPUT_HASH_SIZE 1

/-- `root_hash = [2; 32]` from the spec's concrete scenario. -/
def rootHashC : Bytes := List.replicate INPUT_HASH_SIZE 2

/-- `nonce = [3; 12]` from the spec's concrete scenario. -/
def nonceC : Bytes := List.replicate NONCE_SIZE 3

/-- The single `solve` step of the VDF loop, with its error mapped into
`KeccakPrimeError` as the `?` operator does. -/
def vdfStep (C : Collab) (delay : Nat) (seed : Bytes) : Except KeccakPrimeError Bytes :=
  ((C.vdfNew (PietrzakVDFParams.mk 2048)).solve seed delay).mapError
    KeccakPrimeError.fromInvalidIterations

theorem vdfChain_succ (C : Collab) (delay k : Nat) (seed : Bytes) :
    vdfChain C delay (k + 1) seed = vdfStep C delay seed >>= vdfChain C delay k := rfl

theorem vdfLoop_eq_chain_aux (C : Collab) (delay : Nat) :
    ∀ (l : List Nat) (block : Bytes),
      (l.foldlM
        (fun vdf_output _i =>
          let pietrzak_vdf := C.vdfNew (PietrzakVDFParams.mk 2048)
          (pietrzak_vdf.solve vdf_output delay).mapError
            KeccakPrimeError.fromInvalidIterations)
        block)
        = vdfChain C delay l.length block := by
  intro l
  induction l with
  | nil => intro block; rfl
  | cons x xs ih =>
    intro block
    show vdfStep C delay block >>= _ = _
    rw [List.length_cons, vdfChain_succ]
    cases vdfStep C delay block with
    | ok b => simpa using ih b
    | error e => rfl

/-- The source's `for` loop over `0..vdf_iterations` equals the explicit
seed chain of the same length. -/
theorem vdfLoop_eq_vdfChain (C : Collab) (delay iters : Nat) (block : Bytes) :
    vdfLoop C delay iters block = vdfChain C delay iters block := by
  have h := vdfLoop_eq_chain_aux C delay (List.range iters) block
  simpa [vdfLoop, List.length_range] using h

/-- Chains compose: running `a + b` iterations is running `a`, then
feeding the result to the remaining `b`. -/
theorem vdfChain_add (C : Collab) (delay : Nat) (a b : Nat) (s : Bytes) :
    vdfChain C delay (a + b) s = vdfChain C delay a s >>= vdfChain C delay b := by
  induction a generalizing s with
  | zero => rw [Nat.zero_add]; rfl
  | succ k ih =>
    rw [Nat.succ_add, vdfChain_succ, vdfChain_succ]
    cases vdfStep C delay s with
    | ok t => simpa using ih t
    | error e => rfl

/-- `prime` unfolded into its three stages. -/
theorem prime_eq_stages (C : Collab) (prev_hash root_hash nonce : Bytes)
    (penalty delay vdf_iterations : Nat) :
    prime C prev_hash root_hash nonce penalty delay vdf_iterations =
      (C.expand prev_hash root_hash nonce).mapError KeccakPrimeError.fromAes >>=
        fun block => vdfLoop C delay vdf_iterations block >>=
          fun vdf_output => Except.ok
            (((Keccak.new C.sponge (1088 / 8)).update vdf_output).finalize_with_penalty
              penalty) := rfl

/-- The chain depends only on the VDF-construction collaborator: any
two bundles agreeing on `vdfNew` run the same chain. -/
theorem vdfChain_vdfNew_congr (C C' : Collab) (h : C'.vdfNew = C.vdfNew) (delay : Nat) :
    ∀ (n : Nat) (b : Bytes), vdfChain C' delay n b = vdfChain C delay n b := by
  intro n
  induction n with
  | zero => intro b; rfl
  | succ k ih =>
    intro b
    rw [vdfChain_succ, vdfChain_succ]
    have hstep : vdfStep C' delay b = vdfStep C delay b := by
      unfold vdfStep; rw [h]
    rw [hstep]
    cases vdfStep C delay b with
    | ok t => simpa using ih t
    | error e => rfl

/-- Every error the chain can produce is an `InvalidIterations` wrapped
by the `From` conversion. -/
theorem vdfChain_error_shape (C : Collab) (delay : Nat) :
    ∀ (n : Nat) (b : Bytes) (e : KeccakPrimeError),
      vdfChain C delay n b = Except.error e →
      ∃ i, e = KeccakPrimeError.fromInvalidIterations i := by
  intro n
  induction n with
  | zero => intro b e h; exact absurd h (by simp [vdfChain])
  | succ k ih =>
    intro b e h
    rw [vdfChain_succ] at h
    unfold vdfStep at h
    cases hs : (C.vdfNew (PietrzakVDFParams.mk 2048)).solve b delay with
    | ok t =>
      rw [hs] at h
      exact ih t e (by simpa [Except.mapError] using h)
    | error i =>
      rw [hs] at h
      have h' : (Except.error (KeccakPrimeError.fromInvalidIterations i) :
          Except KeccakPrimeError Bytes) = Except.error e := h
      exact ⟨i, (Except.error.inj h').symm⟩

/-- Claim C1: with `vdf_iterations = 0` the digest of `prime` is obtained by
finalizing the sponge directly over the expanded block with the given
penalty, and the delay chain is a no-op passing any block through
unchanged. -/
theorem prime_zero_iterations (C : Collab) (prev_hash root_hash nonce : Bytes)
    (penalty delay : Nat) :
    prime C prev_hash root_hash nonce penalty delay 0 =
      ((C.expand prev_hash root_hash nonce).mapError KeccakPrimeError.fromAes >>=
        fun block => Except.ok
          (((Keccak.new C.sponge (1088 / 8)).update block).finalize_with_penalty penalty))
    ∧ (∀ block : Bytes, vdfLoop C delay 0 block = Except.ok block) := by
  exact ⟨rfl, fun block => rfl⟩

/-- Claim C2: `prime` is deterministic — two calls on equal argument tuples
return equal results (the same digest on success, the same error on
failure). -/
theorem prime_deterministic (C : Collab)
    (ph1 rh1 n1 ph2 rh2 n2 : Bytes) (pen1 d1 it1 pen2 d2 it2 : Nat)
    (hph : ph1 = ph2) (hrh : rh1 = rh2) (hn : n1 = n2)
    (hpen : pen1 = pen2) (hd : d1 = d2) (hit : it1 = it2) :
    prime C ph1 rh1 n1 pen1 d1 it1 = prime C ph2 rh2 n2 pen2 d2 it2 := by
  subst hph; subst hrh; subst hn; subst hpen; subst hd; subst hit; rfl

/-- Witness for C2 at the spec's concrete scenario. -/
theorem prime_deterministic_witness :
    prime refCollab prevHashC rootHashC nonceC 100 100 10 =
      prime refCollab prevHashC rootHashC nonceC 100 100 10 :=
  prime_deterministic refCollab prevHashC rootHashC nonceC prevHashC rootHashC nonceC
    100 100 10 100 100 10 rfl rfl rfl rfl rfl rfl

/-- Claim C3: the VDF stage is exactly `vdf_iterations` sequential `solve`
calls — the source loop equals the explicit seed chain in which each
iteration feeds its output to the next as seed, every iteration receives
the same `delay`, and each iteration constructs a fresh instance from
the fixed 2048-bit `PietrzakVDFParams`; consequently `prime` decomposes
through that chain. -/
theorem vdf_stage_exact_chain (C : Collab) (prev_hash root_hash nonce : Bytes)
    (penalty delay vdf_iterations : Nat) :
    (∀ block : Bytes,
      vdfLoop C delay vdf_iterations block = vdfChain C delay vdf_iterations block)
    ∧ (∀ (seed : Bytes) (k : Nat),
        vdfChain C delay (k + 1) seed =
          ((C.vdfNew (PietrzakVDFParams.mk 2048)).solve seed delay).mapError
            KeccakPrimeError.fromInvalidIterations >>= vdfChain C delay k)
    ∧ prime C prev_hash root_hash nonce penalty delay vdf_iterations =
        ((C.expand prev_hash root_hash nonce).mapError KeccakPrimeError.fromAes >>=
          fun block => vdfChain C delay vdf_iterations block >>=
            fun v => Except.ok
              (((Keccak.new C.sponge (1088 / 8)).update v).finalize_with_penalty penalty)) := by
  refine ⟨fun block => vdfLoop_eq_vdfChain C delay vdf_iterations block,
    fun seed k => rfl, ?_⟩
  rw [prime_eq_stages]
  simp only [vdfLoop_eq_vdfChain]

/-- Claim C9: with `vdf_iterations = 0` the result of `prime` does not depend
on `delay`, which is consumed only inside the VDF loop body. -/
theorem prime_delay_independent_zero (C : Collab) (prev_hash root_hash nonce : Bytes)
    (penalty d1 d2 : Nat) :
    prime C prev_hash root_hash nonce penalty d1 0 =
      prime C prev_hash root_hash nonce penalty d2 0 := rfl

/-- Claim C10: `prime` is total — on every well-typed input it returns either
a digest or an error. -/
theorem prime_total (C : Collab) (prev_hash root_hash nonce : Bytes)
    (penalty delay vdf_iterations : Nat) :
    (∃ digest, prime C prev_hash root_hash nonce penalty delay vdf_iterations =
        Except.ok digest)
    ∨ (∃ e, prime C prev_hash root_hash nonce penalty delay vdf_iterations =
        Except.error e) := by
  cases h : prime C prev_hash root_hash nonce penalty delay vdf_iterations with
  | ok d => exact Or.inl ⟨d, rfl⟩
  | error e => exact Or.inr ⟨e, rfl⟩

theorem ok_bind {α β : Type} (a : α) (f : α → Except KeccakPrimeError β) :
    (Except.ok a >>= f) = f a := rfl

theorem error_bind {α β : Type} (e : KeccakPrimeError) (f : α → Except KeccakPrimeError β) :
    ((Except.error e : Except KeccakPrimeError α) >>= f) = Except.error e := rfl

/-- A collaborator bundle whose Expander always fails, for exercising
the expansion short-circuit. -/
def failExpandCollab : Collab :=
  { refCollab with expand := fun _ _ _ => Except.error AeadError.mk }

/-- A degenerate sponge, different from the reference one, used to show
the sponge collaborator is irrelevant on error paths. -/
def altSponge : SpongeCore :=
  ⟨fun _ b => b, id, fun _ s => s⟩

/-- A bundle sharing `failExpandCollab`'s Expander but with a VDF that
would fail if consulted and a different sponge. -/
def altAfterExpandFail : Collab :=
  { failExpandCollab with
    vdfNew := fun _ => ⟨fun _ _ => Except.error (InvalidIterations.mk "unreachable")⟩,
    sponge := altSponge }

/-- A bundle whose VDF `solve` always fails. -/
def failSolveCollab : Collab :=
  { refCollab with
    vdfNew := fun _ => ⟨fun _ _ => Except.error (InvalidIterations.mk "invalid iterations")⟩ }

/-- A bundle sharing `failSolveCollab`'s Expander and VDF but with a
different sponge. -/
def altAfterSolveFail : Collab :=
  { failSolveCollab with sponge := altSponge }

/-- The expanded block of the reference Expander on the spec's concrete
scenario. -/
def refBlock : Bytes :=
  (refExpand prevHashC rootHashC nonceC).toOption.getD []

/-- The digest of the spec's concrete scenario under the reference
collaborators. -/
def refDigest : Bytes :=
  (prime refCollab prevHashC rootHashC nonceC 100 100 10).toOption.getD []

/-- Claim C4: if the Expander fails, `prime` returns the expansion-failure
variant wrapping that error, for every bundle sharing that Expander — in
particular regardless of the VDF and sponge collaborators, which are
therefore never consulted. -/
theorem expand_failure_short_circuit (C C' : Collab)
    (prev_hash root_hash nonce : Bytes) (penalty delay vdf_iterations : Nat)
    (e : AeadError)
    (hfail : C.expand prev_hash root_hash nonce = Except.error e)
    (hsame : C'.expand = C.expand) :
    prime C' prev_hash root_hash nonce penalty delay vdf_iterations =
      Except.error (KeccakPrimeError.AesError e) := by
  rw [prime_eq_stages, hsame, hfail]
  rfl

/-- Witness for C4: an always-failing Expander short-circuits `prime`
even when the VDF would fail and the sponge is degenerate. -/
theorem expand_failure_short_circuit_witness :
    prime altAfterExpandFail prevHashC rootHashC nonceC 7 9 5 =
      Except.error (KeccakPrimeError.AesError AeadError.mk) :=
  expand_failure_short_circuit failExpandCollab altAfterExpandFail
    prevHashC rootHashC nonceC 7 9 5 AeadError.mk rfl rfl

/-- Claim C5: if the `k+1`-st VDF iteration's `solve` fails, `prime` aborts
with `VdfInvalidIterations` wrapping that error, for any number `m` of
remaining iterations and for every bundle sharing the Expander and VDF
collaborators — in particular regardless of the sponge, which is never
consulted. -/
theorem vdf_failure_short_circuit (C C' : Collab)
    (prev_hash root_hash nonce : Bytes) (penalty delay : Nat)
    (block s : Bytes) (e : InvalidIterations) (k m : Nat)
    (hexp : C.expand prev_hash root_hash nonce = Except.ok block)
    (hk : vdfLoop C delay k block = Except.ok s)
    (hfail : (C.vdfNew (PietrzakVDFParams.mk 2048)).solve s delay = Except.error e)
    (hexp' : C'.expand = C.expand) (hnew' : C'.vdfNew = C.vdfNew) :
    prime C' prev_hash root_hash nonce penalty delay (k + 1 + m) =
      Except.error (KeccakPrimeError.VdfInvalidIterations e) := by
  have hchain : vdfChain C delay k block = Except.ok s := by
    rw [← vdfLoop_eq_vdfChain]; exact hk
  have hrest : vdfChain C delay (1 + m) s =
      Except.error (KeccakPrimeError.VdfInvalidIterations e) := by
    rw [Nat.add_comm, vdfChain_succ]
    unfold vdfStep
    rw [hfail]
    rfl
  have hall : vdfChain C delay (k + 1 + m) block =
      Except.error (KeccakPrimeError.VdfInvalidIterations e) := by
    rw [Nat.add_assoc, vdfChain_add, hchain, ok_bind, hrest]
  rw [prime_eq_stages, hexp', hexp]
  show vdfLoop C' delay (k + 1 + m) block >>= _ = _
  rw [vdfLoop_eq_vdfChain, vdfChain_vdfNew_congr C C' hnew' delay, hall, error_bind]

/-- Witness for C5: a VDF whose first iteration fails aborts `prime`
with two iterations still pending and a degenerate sponge in place. -/
theorem vdf_failure_short_circuit_witness :
    prime altAfterSolveFail prevHashC rootHashC nonceC 7 9 (0 + 1 + 2) =
      Except.error (KeccakPrimeError.VdfInvalidIterations
        (InvalidIterations.mk "invalid iterations")) :=
  vdf_failure_short_circuit failSolveCollab altAfterSolveFail
    prevHashC rootHashC nonceC 7 9 refBlock refBlock
    (InvalidIterations.mk "invalid iterations") 0 2 rfl rfl rfl rfl rfl

/-- Claim C6: the error type has exactly the two collaborator-failure
variants, each `From` conversion wraps the originating error losslessly
(injectively), and every error `prime` returns is one of the two — for
expansion failures it wraps exactly the Expander's own error value. -/
theorem prime_error_two_variants :
    (∀ e : KeccakPrimeError,
      (∃ a, e = KeccakPrimeError.AesError a) ∨
      (∃ i, e = KeccakPrimeError.VdfInvalidIterations i))
    ∧ (∀ a b : AeadError,
        KeccakPrimeError.fromAes a = KeccakPrimeError.fromAes b → a = b)
    ∧ (∀ i j : InvalidIterations,
        KeccakPrimeError.fromInvalidIterations i =
          KeccakPrimeError.fromInvalidIterations j → i = j)
    ∧ (∀ (C : Collab) (prev_hash root_hash nonce : Bytes)
        (penalty delay vdf_iterations : Nat) (e : KeccakPrimeError),
        prime C prev_hash root_hash nonce penalty delay vdf_iterations =
          Except.error e →
          (∃ a, C.expand prev_hash root_hash nonce = Except.error a ∧
            e = KeccakPrimeError.fromAes a) ∨
          (∃ i, e = KeccakPrimeError.fromInvalidIterations i)) := by
  refine ⟨?_, ?_, ?_, ?_⟩
  · intro e
    cases e with
    | AesError a => exact Or.inl ⟨a, rfl⟩
    | VdfInvalidIterations i => exact Or.inr ⟨i, rfl⟩
  · intro a b h
    exact KeccakPrimeError.AesError.inj h
  · intro i j h
    exact KeccakPrimeError.VdfInvalidIterations.inj h
  · intro C ph rh n pen d it e h
    rw [prime_eq_stages] at h
    cases hx : C.expand ph rh n with
    | error a =>
      rw [hx] at h
      have h' : (Except.error (KeccakPrimeError.fromAes a) :
          Except KeccakPrimeError Bytes) = Except.error e := h
      exact Or.inl ⟨a, rfl, (Except.error.inj h').symm⟩
    | ok block =>
      rw [hx] at h
      have h' : vdfLoop C d it block >>= (fun v => Except.ok
          (((Keccak.new C.sponge (1088 / 8)).update v).finalize_with_penalty pen)) =
          Except.error e := h
      cases hv : vdfLoop C d it block with
      | ok v =>
        rw [hv, ok_bind] at h'
        exact Except.noConfusion h'
      | error e2 =>
        rw [hv, error_bind] at h'
        have he : e2 = e := Except.error.inj h'
        have hshape := vdfChain_error_shape C d it block e2
          (by rw [← vdfLoop_eq_vdfChain]; exact hv)
        rcases hshape with ⟨i, hi⟩
        exact Or.inr ⟨i, he ▸ hi⟩

/-- Witness for C6 at a concrete error value. -/
theorem prime_error_two_variants_witness :
    (∃ a, KeccakPrimeError.AesError AeadError.mk = KeccakPrimeError.AesError a) ∨
    (∃ i, KeccakPrimeError.AesError AeadError.mk =
      KeccakPrimeError.VdfInvalidIterations i) :=
  prime_error_two_variants.1 (KeccakPrimeError.AesError AeadError.mk)

/-- Claim C7: under a sponge whose squeeze emits `INPUT_HASH_SIZE` bytes (the
Digest contract), every successful `prime` call returns a digest of
exactly `INPUT_HASH_SIZE` (32) bytes, regardless of penalty, delay and
iteration count. -/
theorem prime_digest_size (C : Collab)
    (hsq : ∀ (r : Nat) (s : Bytes), (C.sponge.squeeze r s).length = INPUT_HASH_SIZE)
    (prev_hash root_hash nonce : Bytes) (penalty delay vdf_iterations : Nat)
    (digest : Bytes)
    (hok : prime C prev_hash root_hash nonce penalty delay vdf_iterations =
      Except.ok digest) :
    digest.length = INPUT_HASH_SIZE := by
  rw [prime_eq_stages] at hok
  cases hx : C.expand prev_hash root_hash nonce with
  | error a =>
    rw [hx] at hok
    have h' : (Except.error (KeccakPrimeError.fromAes a) :
        Except KeccakPrimeError Bytes) = Except.ok digest := hok
    exact Except.noConfusion h'
  | ok block =>
    rw [hx] at hok
    have h' : vdfLoop C delay vdf_iterations block >>= (fun v => Except.ok
        (((Keccak.new C.sponge (1088 / 8)).update v).finalize_with_penalty penalty)) =
        Except.ok digest := hok
    cases hv : vdfLoop C delay vdf_iterations block with
    | error e2 =>
      rw [hv, error_bind] at h'
      exact Except.noConfusion h'
    | ok v =>
      rw [hv, ok_bind] at h'
      have hd : (((Keccak.new C.sponge (1088 / 8)).update v).finalize_with_penalty
          penalty) = digest := Except.ok.inj h'
      rw [← hd]
      exact hsq _ _

/-- Witness for C7: the spec's concrete scenario
`prime([1;32], [2;32], [3;12], 100, 100, 10)` succeeds under the
reference collaborators and returns a 32-byte digest. -/
theorem prime_digest_size_witness :
    prime refCollab prevHashC rootHashC nonceC 100 100 10 = Except.ok refDigest ∧
      refDigest.length = INPUT_HASH_SIZE :=
  ⟨rfl,
    prime_digest_size refCollab (fun r s => by simp [refCollab, refSponge, refSqueeze])
      prevHashC rootHashC nonceC 100 100 10 refDigest rfl⟩

/-- Claim C8: when the expansion and VDF stages succeed with final output `v`,
`prime` returns exactly the digest of a fresh sponge built with rate
`1088 / 8` bytes (so capacity 512 bits), updated with `v` and finalized
with `penalty` extra permutation rounds; finalizing with penalty 0 is
the ordinary finalize; and the penalized digest is a function of the
absorbed state and the penalty alone. -/
theorem sponge_stage_finalize (C : Collab) (prev_hash root_hash nonce : Bytes)
    (penalty delay vdf_iterations : Nat) (block v : Bytes)
    (hexp : C.expand prev_hash root_hash nonce = Except.ok block)
    (hvdf : vdfLoop C delay vdf_iterations block = Except.ok v) :
    prime C prev_hash root_hash nonce penalty delay vdf_iterations =
      Except.ok (((Keccak.new C.sponge (1088 / 8)).update v).finalize_with_penalty penalty)
    ∧ (∀ k : Keccak, k.finalize_with_penalty 0 = k.finalize)
    ∧ (∀ (k1 k2 : Keccak) (p : Nat), k1.core = k2.core → k1.rate = k2.rate →
        k1.core.absorb k1.rate k1.buf = k2.core.absorb k2.rate k2.buf →
        k1.finalize_with_penalty p = k2.finalize_with_penalty p) := by
  refine ⟨?_, fun k => rfl, ?_⟩
  · rw [prime_eq_stages, hexp]
    show vdfLoop C delay vdf_iterations block >>= _ = _
    rw [hvdf, ok_bind]
  · intro k1 k2 p hcore hrate habs
    unfold Keccak.finalize_with_penalty
    rw [habs, hcore, hrate]

/-- Witness for C8 with the reference collaborators and no VDF
iterations: the digest is the direct penalized finalization over the
expanded block. -/
theorem sponge_stage_finalize_witness :
    prime refCollab prevHashC rootHashC nonceC 3 5 0 =
      Except.ok (((Keccak.new refCollab.sponge (1088 / 8)).update
        refBlock).finalize_with_penalty 3) :=
  (sponge_stage_finalize refCollab prevHashC rootHashC nonceC 3 5 0
    refBlock refBlock rfl rfl).1

end KeccakPrime
